import Mathlib

/-!
Verification development for the jikji metrics exporter.

The repository (src/src/main.rs) contains the configuration data model
(Config, Database, Metric), the configuration loader parse_config, and a
prometheus-based HTTP handler.  The scheduled collection engine described
by the specification (frequency parser, metric registry, jobs, scheduler,
snapshot exporter) is not present in the source; those components are
modelled here directly from the specification text, each such definition
marked by a doc comment starting with the words Modelled from the spec.
-/

set_option autoImplicit false

namespace Jikji

/-- Embeds the Metric struct of src/src/main.rs (lines 74-78): the derived
configuration structure declares exactly two fields, a name and a raw
frequency string. -/
structure Metric where
  name : String
  frequency : String
deriving DecidableEq, Repr

/-- Embeds the Database struct of src/src/main.rs: driver, connection
parameters and the list of configured metrics. -/
structure Database where
  driver : String
  hostname : String
  port : Nat
  username : String
  password : String
  database : String
  metrics : List Metric
deriving DecidableEq, Repr

/-- Embeds the Config struct of src/src/main.rs: a title and the ordered
sequence of databases. -/
structure Config where
  title : String
  databases : List Database
deriving DecidableEq, Repr

/-- Models the behavior of the serde Deserialize derive on the Metric
struct for a TOML table whose values are strings: deserialization succeeds
exactly when the table provides values for the declared fields name and
frequency, and any key not named by a declared field is ignored (serde's
default when deny_unknown_fields is not set). -/
def deserializeMetric (t : List (String × String)) : Option Metric :=
  match List.lookup "name" t, List.lookup "frequency" t with
  | some n, some f => some ⟨n, f⟩
  | _, _ => none

/-- The metrics table of the embedded test fixture test_config in
src/src/main.rs (lines 89-114): it carries the declared keys name and
frequency together with the extra keys type and query. -/
def fixtureMetricTable : List (String × String) :=
  [ ("name", "hubspot.actions.delayed")
  , ("type", "counter")
  , ("frequency", "15m")
  , ("query", " select count(*) from actions_scheduled\n    where completed is null\n    and scheduled < now() - interval '15 minutes'\n    and scheduled > now() - interval '1 day';\n    ")
  ]

/-- Embeds parse_config of src/src/main.rs (lines 80-83).  The filesystem
is modelled as a map from path to optional contents and the toml
deserializer for Config as a function to Option Config; a Rust panic
(expect on a missing file, unwrap on a failed deserialization) is modelled
as Except.error carrying the panic message. -/
def parse_config (fs : String → Option String) (fromStr : String → Option Config) :
    Except String Config :=
  match fs "example.toml" with
  | none => .error "Config not found"
  | some contents =>
    match fromStr contents with
    | none => .error "toml deserialization failed"
    | some config => .ok config

/-- Modelled from the spec: the metric kinds of the MetricSpec data model
(counter | gauge | histogram); absent from the source. -/
inductive MetricKind where
  | counter
  | gauge
  | histogram
deriving DecidableEq, Repr

/-- Modelled from the spec: the startup-fatal ConfigurationError taxonomy
(invalid frequency string, duplicate metric name, unknown driver); absent
from the source. -/
inductive ConfigError where
  | invalidFrequency
  | duplicateMetricName
  | unknownDriver
deriving DecidableEq, Repr

/-- Modelled from the spec: the seconds multiplier of a frequency unit,
with unit in s, m, h. -/
def unitSeconds (c : Char) : Option Nat :=
  if c = 's' then some 1
  else if c = 'm' then some 60
  else if c = 'h' then some 3600
  else none

/-- Modelled from the spec: the value of a decimal digit string. -/
def digitsToNat (ds : List Char) : Nat :=
  ds.foldl (fun acc c => 10 * acc + (c.toNat - 48)) 0

/-- Parses a frequency from its reversed character list: the leading
character must be a unit and the remaining characters, read back in
order, a nonempty digit string with a strictly positive value. -/
def parseFreqRev : List Char → Except ConfigError Nat
  | [] => .error .invalidFrequency
  | u :: rds =>
    match unitSeconds u with
    | none => .error .invalidFrequency
    | some mult =>
      if rds = [] then .error .invalidFrequency
      else if rds.reverse.all Char.isDigit then
        if 0 < digitsToNat rds.reverse then .ok (digitsToNat rds.reverse * mult)
        else .error .invalidFrequency
      else .error .invalidFrequency

/-- Modelled from the spec: the Frequency Parser, a pure function turning
a string of the shape integer-then-unit into a duration in seconds, and
failing with InvalidFrequency on any string outside that grammar or whose
integer is not strictly positive; absent from the source. -/
def parseFrequency (str : String) : Except ConfigError Nat :=
  parseFreqRev str.toList.reverse

/-- Modelled from the spec: a MetricValue of the Registry, carrying the
last successfully observed value (absent until the first success), the
metric kind, a last-updated timestamp, and the health flag; absent from
the source. -/
structure MetricValue where
  kind : MetricKind
  value : Option Int
  lastUpdated : Nat
  healthy : Bool
deriving DecidableEq, Repr

/-- Modelled from the spec: the Metric Registry, a mapping from metric
name to MetricValue with at most one entry per name; absent from the
source. -/
abbrev Registry := List (String × MetricValue)

/-- Modelled from the spec: register is an idempotent identity
reservation, failing with DuplicateMetricName when the name is held with
a different kind, a silent no-op when held identically, and otherwise
creating the entry in an absent initial state. -/
def register (name : String) (kind : MetricKind) (r : Registry) :
    Except ConfigError Registry :=
  match List.lookup name r with
  | some mv => if mv.kind = kind then .ok r else .error .duplicateMetricName
  | none => .ok (r ++ [(name, ⟨kind, none, 0, false⟩)])

/-- Rewrites the entry of the given name in place, leaving every other
entry untouched. -/
def setEntry (name : String) (f : MetricValue → MetricValue) : Registry → Registry
  | [] => []
  | (n, mv) :: rest =>
    if n = name then (n, f mv) :: rest else (n, mv) :: setEntry name f rest

/-- Modelled from the spec: update overwrites the MetricValue with the
new value and timestamp and marks health as success. -/
def update (name : String) (v : Int) (t : Nat) (r : Registry) : Registry :=
  setEntry name (fun mv => { mv with value := some v, lastUpdated := t, healthy := true }) r

/-- Modelled from the spec: record_failure marks the most recent attempt
as failed without overwriting the last-known-good value. -/
def record_failure (name : String) (r : Registry) : Registry :=
  setEntry name (fun mv => { mv with healthy := false }) r

/-- Modelled from the spec: the Snapshot Exporter serializes every
MetricValue of the registry snapshot, skipping entries never successfully
populated; it is total, so no registry state can make it fail. -/
def exportSnapshot (r : Registry) : List (String × Int) :=
  r.filterMap (fun p => (p.2.value).map (fun v => (p.1, v)))

/-- Modelled from the spec: the four-field MetricSpec of the
specification's data model (name, kind, frequency, query); the source's
Metric struct declares only name and frequency. -/
structure MetricSpec where
  name : String
  kind : MetricKind
  frequency : String
  query : String
deriving DecidableEq, Repr

/-- Modelled from the spec: a configured Database of the specification's
data model, owning its MetricSpecs. -/
structure DatabaseSpec where
  driver : String
  hostname : String
  port : Nat
  username : String
  password : String
  databaseName : String
  metrics : List MetricSpec
deriving DecidableEq, Repr

/-- Modelled from the spec: the validated in-memory Configuration handed
to the scheduler at startup. -/
structure Configuration where
  title : String
  databases : List DatabaseSpec
deriving DecidableEq, Repr

/-- Modelled from the spec: the drivers the engine knows how to connect
to (the spec's driver enum: postgres, mysql, etc.). -/
def knownDrivers : List String := ["postgres", "mysql"]

/-- Modelled from the spec: a Job, one per MetricSpec, holding its spec,
the identity of its Database's executor, and the parsed frequency. -/
structure Job where
  spec : MetricSpec
  dbDriver : String
  period : Nat
deriving DecidableEq, Repr

/-- Every MetricSpec of the configuration, in database order. -/
def allSpecs (cfg : Configuration) : List MetricSpec :=
  cfg.databases.foldr (fun d acc => d.metrics ++ acc) []

/-- Every MetricSpec paired with its database's driver, in database
order. -/
def pairedSpecs (cfg : Configuration) : List (String × MetricSpec) :=
  cfg.databases.foldr (fun d acc => d.metrics.map (fun m => (d.driver, m)) ++ acc) []

/-- Builds one Job per MetricSpec, parsing each frequency and failing on
the first invalid one. -/
def buildJobs : List (String × MetricSpec) → Except ConfigError (List Job)
  | [] => .ok []
  | (drv, m) :: rest =>
    match parseFrequency m.frequency with
    | .error e => .error e
    | .ok p =>
      match buildJobs rest with
      | .error e => .error e
      | .ok js => .ok (⟨m, drv, p⟩ :: js)

/-- Modelled from the spec: the Initializing state of the Scheduler,
absent from the source: build one Job per MetricSpec, validate every
driver, metric name and frequency, and fail the whole startup with a
ConfigurationError on any invalid MetricSpec, all-or-nothing. -/
def startup (cfg : Configuration) : Except ConfigError (List Job) :=
  if cfg.databases.any (fun d => !(knownDrivers.contains d.driver)) then
    .error .unknownDriver
  else if ((allSpecs cfg).map MetricSpec.name).Nodup then
    buildJobs (pairedSpecs cfg)
  else
    .error .duplicateMetricName

/-- Modelled from the spec: the per-Job scheduling state, absent from the
source: the in-flight flag is modelled over discrete time as the instant
the running execution finishes, together with the trace of execution
start times and of skipped ticks. -/
structure SchedState where
  busyUntil : Nat
  starts : List Nat
  skipped : List Nat
deriving DecidableEq, Repr

/-- Modelled from the spec: one tick of a Job under the run-once contract
with an execution lasting d seconds: when the in-flight flag is still set
the tick is skipped entirely, neither queued nor caught up; otherwise an
execution starts now and holds the in-flight flag for d seconds. -/
def jobTick (d : Nat) (t : Nat) (s : SchedState) : SchedState :=
  if t < s.busyUntil then { s with skipped := s.skipped ++ [t] }
  else { busyUntil := t + d, starts := s.starts ++ [t], skipped := s.skipped }

/-- Modelled from the spec: a Job driven on its own periodic timer with
frequency f, whose execution stub blocks for d seconds: the first n ticks
fire at instants 0, f, 2f, and so on. -/
def runSchedule (f d : Nat) : Nat → SchedState
  | 0 => ⟨0, [], []⟩
  | n + 1 => jobTick d (n * f) (runSchedule f d n)

/-- A concrete valid configuration: one postgres database carrying one
counter metric collected every fifteen minutes. -/
def sampleConfig : Configuration :=
  ⟨"Default Jikji Config",
    [⟨"postgres", "127.0.0.1", 5432, "postgres", "secret", "postgres",
      [⟨"jobs.delayed", .counter, "15m", "select count(*) from actions_scheduled"⟩]⟩]⟩

/-- The job set startup builds from sampleConfig. -/
def sampleJobs : List Job :=
  [⟨⟨"jobs.delayed", .counter, "15m", "select count(*) from actions_scheduled"⟩,
    "postgres", 900⟩]

/-- A concrete invalid configuration: the same metric name appears twice
in one database's metric list. -/
def dupConfig : Configuration :=
  ⟨"dup",
    [⟨"postgres", "127.0.0.1", 5432, "postgres", "secret", "postgres",
      [⟨"jobs.delayed", .counter, "15m", "q1"⟩,
       ⟨"jobs.delayed", .gauge, "1h", "q2"⟩]⟩]⟩

section Lemmas

/-- Looking a name up after setEntry: the rewritten entry is seen through
the rewriting function, every other name is untouched. -/
theorem lookup_setEntry (f : MetricValue → MetricValue) (name n : String) (r : Registry) :
    List.lookup n (setEntry name f r) =
      if n = name then (List.lookup n r).map f else List.lookup n r := by
  induction r with
  | nil => simp [setEntry]
  | cons p rest ih =>
    obtain ⟨k, mv⟩ := p
    by_cases hn : n = k
    · subst hn
      have hb : (n == n) = true := by simp
      by_cases hk : n = name
      · subst hk
        simp [setEntry, List.lookup, hb]
      · simp [setEntry, List.lookup, hb, if_neg hk]
    · have hb : (n == k) = false := by simp [hn]
      by_cases hk : k = name
      · subst hk
        have hnk : ¬ n = k := hn
        simp [setEntry, List.lookup, hb, if_neg hnk]
      · simp [setEntry, List.lookup, hb, if_neg hk, ih]

/-- setEntry with a value-preserving rewriting function leaves the
exported snapshot unchanged. -/
theorem exportSnapshot_setEntry (f : MetricValue → MetricValue)
    (hf : ∀ mv, (f mv).value = mv.value) (name : String) (r : Registry) :
    exportSnapshot (setEntry name f r) = exportSnapshot r := by
  induction r with
  | nil => rfl
  | cons p rest ih =>
    obtain ⟨k, mv⟩ := p
    by_cases hk : k = name
    · cases hv : mv.value <;>
        simp [setEntry, hk, exportSnapshot, List.filterMap_cons, hf, hv]
    · cases hv : mv.value <;>
        simp [setEntry, hk, exportSnapshot, List.filterMap_cons, hv] <;>
        simpa [exportSnapshot] using ih

/-- A name that looks up to nothing heads no pair of the list. -/
theorem lookup_eq_none_forall {name : String} {r : Registry}
    (h : List.lookup name r = none) : ∀ p ∈ r, p.1 ≠ name := by
  induction r with
  | nil => intro p hp; cases hp
  | cons q rest ih =>
    obtain ⟨k, mv⟩ := q
    by_cases hk : name = k
    · exfalso
      have hb : (name == k) = true := by simp [hk]
      simp [List.lookup, hb] at h
    · have hb : (name == k) = false := by simp [hk]
      have h2 : List.lookup name rest = none := by simpa [List.lookup, hb] using h
      intro p hp
      rcases List.mem_cons.mp hp with hp | hp
      · subst hp
        exact fun hkk => hk hkk.symm
      · exact ih h2 p hp

/-- Appending a fresh entry makes its name look up to it. -/
theorem lookup_append_fresh {name : String} {r : Registry} (e : MetricValue)
    (h : List.lookup name r = none) :
    List.lookup name (r ++ [(name, e)]) = some e := by
  induction r with
  | nil => simp [List.lookup]
  | cons q rest ih =>
    obtain ⟨k, mv⟩ := q
    by_cases hk : name = k
    · exfalso
      have hb : (name == k) = true := by simp [hk]
      simp [List.lookup, hb] at h
    · have hb : (name == k) = false := by simp [hk]
      have h2 : List.lookup name rest = none := by simpa [List.lookup, hb] using h
      simpa [List.lookup, hb] using ih h2

/-- A successful buildJobs produces exactly the given specs, in order. -/
theorem buildJobs_ok_map {l : List (String × MetricSpec)} {js : List Job}
    (h : buildJobs l = .ok js) : js.map Job.spec = l.map Prod.snd := by
  induction l generalizing js with
  | nil =>
    simp [buildJobs] at h
    subst h
    rfl
  | cons p rest ih =>
    obtain ⟨drv, m⟩ := p
    simp only [buildJobs] at h
    cases hp : parseFrequency m.frequency with
    | error e => rw [hp] at h; cases h
    | ok per =>
      rw [hp] at h
      cases hb : buildJobs rest with
      | error e => rw [hb] at h; cases h
      | ok js2 =>
        rw [hb] at h
        cases h
        simpa using ih hb

/-- buildJobs fails whenever some spec's frequency fails to parse. -/
theorem buildJobs_error_of_bad {l : List (String × MetricSpec)}
    (h : ∃ p ∈ l, ∃ e, parseFrequency p.2.frequency = .error e) :
    ∃ e, buildJobs l = .error e := by
  induction l with
  | nil => obtain ⟨p, hp, _⟩ := h; cases hp
  | cons q rest ih =>
    obtain ⟨drv, m⟩ := q
    obtain ⟨p, hp, e, he⟩ := h
    rcases List.mem_cons.mp hp with hp | hp
    · subst hp
      refine ⟨e, ?_⟩
      simp only [buildJobs, he]
    · cases hq : parseFrequency m.frequency with
      | error e2 => exact ⟨e2, by simp only [buildJobs, hq]⟩
      | ok per =>
        obtain ⟨e2, he2⟩ := ih ⟨p, hp, e, he⟩
        exact ⟨e2, by simp only [buildJobs, hq, he2]⟩

/-- The database-tagged spec list projects to the plain spec list. -/
theorem pairedSpecs_map_snd (cfg : Configuration) :
    (pairedSpecs cfg).map Prod.snd = allSpecs cfg := by
  show ((cfg.databases.foldr (fun d acc => d.metrics.map (fun m => (d.driver, m)) ++ acc) []).map
      Prod.snd) = cfg.databases.foldr (fun d acc => d.metrics ++ acc) []
  induction cfg.databases with
  | nil => rfl
  | cons d rest ih => simp [List.map_append, List.map_map, ih]

/-- The flattened spec list counts one spec per metric of every
database. -/
theorem allSpecs_length (cfg : Configuration) :
    (allSpecs cfg).length = (cfg.databases.map (fun d => d.metrics.length)).sum := by
  show (cfg.databases.foldr (fun d acc => d.metrics ++ acc) []).length = _
  induction cfg.databases with
  | nil => rfl
  | cons d rest ih => simp [ih]

/-- Scheduler invariant: execution start times are separated by at least
the execution duration, and the in-flight flag covers the last start. -/
theorem runSchedule_invariant (f d n : Nat) :
    List.Pairwise (fun a b => a + d ≤ b) (runSchedule f d n).starts ∧
      ∀ a ∈ (runSchedule f d n).starts, a + d ≤ (runSchedule f d n).busyUntil := by
  induction n with
  | zero => exact ⟨List.Pairwise.nil, by intro a ha; cases ha⟩
  | succ n ih =>
    obtain ⟨hpw, hbound⟩ := ih
    by_cases ht : n * f < (runSchedule f d n).busyUntil
    · constructor
      · simpa [runSchedule, jobTick, ht] using hpw
      · intro a ha
        simp only [runSchedule, jobTick, if_pos ht] at ha ⊢
        exact hbound a ha
    · have hge : (runSchedule f d n).busyUntil ≤ n * f := Nat.le_of_not_lt ht
      constructor
      · simp only [runSchedule, jobTick, if_neg ht]
        refine List.pairwise_append.mpr ⟨hpw, List.pairwise_singleton _ _, ?_⟩
        intro a ha b hb
        rcases List.mem_singleton.mp hb with rfl
        exact le_trans (hbound a ha) hge
      · intro a ha
        simp only [runSchedule, jobTick, if_neg ht] at ha ⊢
        rcases List.mem_append.mp ha with ha | ha
        · exact le_trans (le_trans (hbound a ha) hge) (Nat.le_add_right _ _)
        · rcases List.mem_singleton.mp ha with rfl
          exact Nat.le_refl _

end Lemmas

/-- C10: deserializing a configuration metric silently ignores unknown
keys: the embedded test fixture's metrics table, which carries the extra
keys type and query, deserializes successfully into a Metric holding only
the name and the frequency, the extra keys discarded rather than
rejected. -/
theorem C10_unknown_keys_ignored :
    deserializeMetric fixtureMetricTable =
      some ⟨"hubspot.actions.delayed", "15m"⟩ := by
  rfl

/-- C7 counterexample: the claim says the in-memory metric specification
carries kind and query in addition to name and frequency; but two
configured metric tables agreeing on name and frequency while differing
in their type and query entries produce the very same in-memory Metric,
so the declared structure cannot be carrying a kind or a query. -/
theorem C7_counterexample :
    deserializeMetric
        [("name", "a"), ("type", "counter"), ("frequency", "15m"), ("query", "q1")] =
      deserializeMetric
        [("name", "a"), ("type", "gauge"), ("frequency", "15m"), ("query", "q2")] ∧
    deserializeMetric
        [("name", "a"), ("type", "counter"), ("frequency", "15m"), ("query", "q1")] =
      some ⟨"a", "15m"⟩ := by
  exact ⟨rfl, rfl⟩

/-- C7 amended: the declared in-memory metric structure carries exactly
two fields, name and frequency; type and query entries of a configured
metric table are not part of it and never influence deserialization. -/
theorem C7_metric_two_fields :
    (∀ m : Metric, m = Metric.mk m.name m.frequency) ∧
    (∀ (t : List (String × String)) (v w : String),
      deserializeMetric (("type", v) :: ("query", w) :: t) = deserializeMetric t) := by
  constructor
  · intro m
    cases m
    rfl
  · intro t v w
    have h1 : ("name" == "type") = false := by decide
    have h2 : ("name" == "query") = false := by decide
    have h3 : ("frequency" == "type") = false := by decide
    have h4 : ("frequency" == "query") = false := by decide
    simp [deserializeMetric, List.lookup, h1, h2, h3, h4]

/-- C2: record_failure leaves the last-known-good MetricValue of every
name unchanged, touching only the health marker; concretely, after a
successful update writing 42 a failed tick still exports the metric with
value 42 (stale-but-present). -/
theorem C2_record_failure_preserves_value :
    (∀ (name n : String) (r : Registry),
      Option.map (fun mv => (mv.kind, mv.value, mv.lastUpdated))
          (List.lookup n (record_failure name r)) =
        Option.map (fun mv => (mv.kind, mv.value, mv.lastUpdated)) (List.lookup n r)) ∧
    register "jobs.delayed" MetricKind.counter [] =
      .ok [("jobs.delayed", ⟨MetricKind.counter, none, 0, false⟩)] ∧
    exportSnapshot (record_failure "jobs.delayed"
        (update "jobs.delayed" 42 1 [("jobs.delayed", ⟨MetricKind.counter, none, 0, false⟩)])) =
      [("jobs.delayed", 42)] := by
  refine ⟨?_, rfl, rfl⟩
  intro name n r
  rw [record_failure, lookup_setEntry]
  by_cases hn : n = name
  · rw [if_pos hn]
    cases List.lookup n r <;> rfl
  · rw [if_neg hn]

/-- C8: producing the exposition snapshot never fails because of Job
failures: export is total and unchanged by record_failure, it lists
exactly the entries holding a last known-good value (with that value),
and a freshly registered, never-successful metric is omitted without
disturbing already-successful ones. -/
theorem C8_export_never_fails :
    (∀ (r : Registry) (name : String),
      exportSnapshot (record_failure name r) = exportSnapshot r) ∧
    (∀ (r : Registry) (n : String) (v : Int),
      (n, v) ∈ exportSnapshot r ↔ ∃ mv, (n, mv) ∈ r ∧ mv.value = some v) ∧
    register "fresh.metric" MetricKind.counter
        [("good.metric", ⟨MetricKind.gauge, some 7, 1, true⟩)] =
      .ok [("good.metric", ⟨MetricKind.gauge, some 7, 1, true⟩),
        ("fresh.metric", ⟨MetricKind.counter, none, 0, false⟩)] ∧
    exportSnapshot [("good.metric", ⟨MetricKind.gauge, some 7, 1, true⟩),
        ("fresh.metric", ⟨MetricKind.counter, none, 0, false⟩)] = [("good.metric", 7)] := by
  refine ⟨?_, ?_, rfl, rfl⟩
  · intro r name
    exact exportSnapshot_setEntry (fun mv => { mv with healthy := false })
      (fun mv => rfl) name r
  · intro r n v
    simp only [exportSnapshot, List.mem_filterMap]
    constructor
    · rintro ⟨⟨a, mv⟩, hmem, hf⟩
      obtain ⟨w, hw, hpair⟩ := Option.map_eq_some'.mp hf
      simp only [Prod.mk.injEq] at hpair
      obtain ⟨rfl, rfl⟩ := hpair
      exact ⟨mv, hmem, hw⟩
    · rintro ⟨mv, hmem, hv⟩
      exact ⟨(n, mv), hmem, by simp [hv]⟩

/-- C9: parse_config consults the filesystem only at the fixed relative
path example.toml, panics when that file is missing or its contents fail
to deserialize into Config, and returns the deserialized Config for every
readable well-formed file. -/
theorem C9_parse_config_behavior :
    (∀ (fs fs2 : String → Option String) (fromStr : String → Option Config),
      fs "example.toml" = fs2 "example.toml" →
        parse_config fs fromStr = parse_config fs2 fromStr) ∧
    (∀ (fs : String → Option String) (fromStr : String → Option Config),
      fs "example.toml" = none → parse_config fs fromStr = .error "Config not found") ∧
    (∀ (fs : String → Option String) (fromStr : String → Option Config) (s : String),
      fs "example.toml" = some s → fromStr s = none →
        parse_config fs fromStr = .error "toml deserialization failed") ∧
    (∀ (fs : String → Option String) (fromStr : String → Option Config) (s : String)
        (c : Config),
      fs "example.toml" = some s → fromStr s = some c → parse_config fs fromStr = .ok c) := by
  refine ⟨?_, ?_, ?_, ?_⟩
  · intro fs fs2 fromStr h
    simp only [parse_config, h]
  · intro fs fromStr h
    simp only [parse_config, h]
  · intro fs fromStr s h1 h2
    simp only [parse_config, h1, h2]
  · intro fs fromStr s c h1 h2
    simp only [parse_config, h1, h2]

/-- C9 witness: the three behaviors at concrete filesystem and
deserializer stubs. -/
theorem C9_witness :
    parse_config (fun _ => none) (fun _ => none) = .error "Config not found" ∧
    parse_config (fun _ => some "x") (fun _ => none) =
      .error "toml deserialization failed" ∧
    parse_config (fun _ => some "x") (fun _ => some ⟨"t", []⟩) = .ok ⟨"t", []⟩ :=
  ⟨C9_parse_config_behavior.2.1 _ _ rfl,
    C9_parse_config_behavior.2.2.1 _ _ "x" rfl rfl,
    C9_parse_config_behavior.2.2.2 _ _ "x" ⟨"t", []⟩ rfl rfl⟩

/-- C1: a tick firing while the Job's in-flight flag is set is skipped
entirely, neither queued nor caught up; execution start times are always
separated by at least the execution duration, so two executions of a Job
never run concurrently; and a Job with a 1-second frequency whose
execution stub blocks for 3 seconds starts only at instants 0 and 3 over
5 seconds of ticks, at most twice. -/
theorem C1_overlap_skip :
    (∀ (d t : Nat) (s : SchedState), t < s.busyUntil →
      jobTick d t s = { s with skipped := s.skipped ++ [t] }) ∧
    (∀ f d n : Nat, List.Pairwise (fun a b => a + d ≤ b) (runSchedule f d n).starts) ∧
    (runSchedule 1 3 5).starts = [0, 3] ∧
    (runSchedule 1 3 5).starts.length ≤ 2 := by
  refine ⟨?_, ?_, by decide, by decide⟩
  · intro d t s h
    simp [jobTick, h]
  · intro f d n
    exact (runSchedule_invariant f d n).1

/-- C1 witness: the skip branch at a concrete in-flight state and the
no-overlap separation of the concrete 5-second run. -/
theorem C1_witness :
    jobTick 3 1 ⟨3, [0], []⟩ = ⟨3, [0], [1]⟩ ∧
    List.Pairwise (fun a b => a + 3 ≤ b) (runSchedule 1 3 5).starts :=
  ⟨C1_overlap_skip.1 3 1 ⟨3, [0], []⟩ (by decide), C1_overlap_skip.2.1 1 3 5⟩

/-- C4: register is an idempotent identity reservation: registering a
fresh name creates exactly one entry, registering it again with the same
kind succeeds as a no-op, and registering it with a different kind fails
with DuplicateMetricName. -/
theorem C4_register_idempotent (name : String) (k k2 : MetricKind) (r : Registry)
    (h : List.lookup name r = none) :
    register name k r = .ok (r ++ [(name, ⟨k, none, 0, false⟩)]) ∧
    register name k (r ++ [(name, ⟨k, none, 0, false⟩)]) =
      .ok (r ++ [(name, ⟨k, none, 0, false⟩)]) ∧
    List.countP (fun p => p.1 == name) (r ++ [(name, ⟨k, none, 0, false⟩)]) = 1 ∧
    (k2 ≠ k →
      register name k2 (r ++ [(name, ⟨k, none, 0, false⟩)]) =
        .error .duplicateMetricName) := by
  have hfresh := lookup_append_fresh (⟨k, none, 0, false⟩ : MetricValue) h
  refine ⟨?_, ?_, ?_, ?_⟩
  · simp only [register, h]
  · simp only [register, hfresh]
    simp
  · rw [List.countP_append]
    have h0 : List.countP (fun p => p.1 == name) r = 0 := by
      rw [List.countP_eq_zero]
      intro p hp
      have hne := lookup_eq_none_forall h p hp
      simp [hne]
    rw [h0]
    simp
  · intro hk
    simp only [register, hfresh]
    rw [if_neg (fun hkk => hk hkk.symm)]

/-- C4 witness: the four behaviors at a concrete fresh name against the
empty registry. -/
theorem C4_witness :
    register "a" MetricKind.counter [] =
      .ok [("a", ⟨MetricKind.counter, none, 0, false⟩)] ∧
    register "a" MetricKind.counter [("a", ⟨MetricKind.counter, none, 0, false⟩)] =
      .ok [("a", ⟨MetricKind.counter, none, 0, false⟩)] ∧
    List.countP (fun p => p.1 == "a")
      ([("a", ⟨MetricKind.counter, none, 0, false⟩)] : Registry) = 1 ∧
    register "a" MetricKind.gauge [("a", ⟨MetricKind.counter, none, 0, false⟩)] =
      .error .duplicateMetricName := by
  obtain ⟨h1, h2, h3, h4⟩ :=
    C4_register_idempotent "a" MetricKind.counter MetricKind.gauge [] rfl
  exact ⟨h1, h2, h3, h4 (by decide)⟩

/-- C3: the frequency parser maps 15m to 900 seconds, 1h to 3600 and 30s
to 30, succeeds exactly on a nonempty digit string of positive value
followed by a unit, and fails with InvalidFrequency on every other
string, in particular on 0m, -5m and abc. -/
theorem C3_frequency_grammar :
    parseFrequency "15m" = .ok 900 ∧
    parseFrequency "1h" = .ok 3600 ∧
    parseFrequency "30s" = .ok 30 ∧
    parseFrequency "0m" = .error .invalidFrequency ∧
    parseFrequency "-5m" = .error .invalidFrequency ∧
    parseFrequency "abc" = .error .invalidFrequency ∧
    (∀ (ds : List Char) (u : Char) (mult : Nat),
      ds ≠ [] → ds.all Char.isDigit = true → unitSeconds u = some mult →
        0 < digitsToNat ds →
        parseFrequency (String.mk (ds ++ [u])) = .ok (digitsToNat ds * mult)) ∧
    (∀ s : String,
      (¬ ∃ ds u, s.toList = ds ++ [u] ∧ ds ≠ [] ∧ ds.all Char.isDigit = true ∧
          (unitSeconds u).isSome = true ∧ 0 < digitsToNat ds) →
        parseFrequency s = .error .invalidFrequency) := by
  refine ⟨rfl, rfl, rfl, rfl, rfl, rfl, ?_, ?_⟩
  · intro ds u mult hne hdig hu hpos
    show parseFreqRev ((ds ++ [u]).reverse) = .ok (digitsToNat ds * mult)
    rw [List.reverse_append]
    simp only [List.reverse_cons, List.reverse_nil, List.nil_append, List.singleton_append]
    simp only [parseFreqRev, hu]
    rw [if_neg (fun hh => hne (List.reverse_eq_nil_iff.mp hh))]
    rw [List.reverse_reverse, if_pos hdig, if_pos hpos]
  · intro s h
    show parseFreqRev s.toList.reverse = .error .invalidFrequency
    by_cases hrev : s.toList.reverse = []
    · rw [hrev]
      rfl
    · obtain ⟨u, rds, hur⟩ : ∃ u rds, s.toList.reverse = u :: rds := by
        cases hx : s.toList.reverse with
        | nil => exact absurd hx hrev
        | cons a l => exact ⟨a, l, rfl⟩
      have hs : s.toList = rds.reverse ++ [u] := by
        have h2 := congrArg List.reverse hur
        rwa [List.reverse_reverse, List.reverse_cons] at h2
      rw [hur]
      cases hu : unitSeconds u with
      | none => simp only [parseFreqRev, hu]
      | some mult =>
        by_cases hrds : rds = []
        · simp only [parseFreqRev, hu, if_pos hrds]
        · simp only [parseFreqRev, hu, if_neg hrds]
          by_cases hdig : rds.reverse.all Char.isDigit = true
          · by_cases hpos : 0 < digitsToNat rds.reverse
            · exact absurd
                ⟨rds.reverse, u, hs, fun hh => hrds (List.reverse_eq_nil_iff.mp hh),
                  hdig, by simp [hu], hpos⟩ h
            · rw [if_pos hdig, if_neg hpos]
          · rw [if_neg hdig]

/-- C3 witness: a concrete success through the grammar clause and a
concrete failure of the empty string through the completeness clause. -/
theorem C3_witness :
    parseFrequency (String.mk (['1', '5'] ++ ['m'])) =
      .ok (digitsToNat ['1', '5'] * 60) ∧
    parseFrequency "" = .error .invalidFrequency :=
  ⟨C3_frequency_grammar.2.2.2.2.2.2.1 ['1', '5'] 'm' 60 (by decide) (by decide)
      (by decide) (by decide),
    C3_frequency_grammar.2.2.2.2.2.2.2 "" (by
      rintro ⟨ds, u, hh, -, -, -, -⟩
      have h0 : ds ++ [u] = ([] : List Char) := by
        rw [← hh]
        rfl
      simp at h0)⟩

/-- C5: startup is all-or-nothing: a configuration containing any invalid
MetricSpec (duplicate metric name, bad frequency string, or unknown
driver) makes startup fail with a ConfigurationError, and no job set at
all is produced. -/
theorem C5_all_or_nothing (cfg : Configuration)
    (h : ¬ ((allSpecs cfg).map MetricSpec.name).Nodup ∨
      (∃ m ∈ allSpecs cfg, ∃ e, parseFrequency m.frequency = .error e) ∨
      (∃ db ∈ cfg.databases, ¬ db.driver ∈ knownDrivers)) :
    (∃ e, startup cfg = .error e) ∧ ∀ js, startup cfg ≠ .ok js := by
  have herr : ∃ e, startup cfg = .error e := by
    by_cases hd : cfg.databases.any (fun d => !(knownDrivers.contains d.driver)) = true
    · exact ⟨.unknownDriver, by simp only [startup, if_pos hd]⟩
    · by_cases hnd : ((allSpecs cfg).map MetricSpec.name).Nodup
      · rcases h with h | h | h
        · exact absurd hnd h
        · obtain ⟨m, hm, e, he⟩ := h
          rw [← pairedSpecs_map_snd] at hm
          obtain ⟨p, hp, hpm⟩ := List.mem_map.mp hm
          obtain ⟨e2, he2⟩ := buildJobs_error_of_bad ⟨p, hp, e, by rw [hpm]; exact he⟩
          refine ⟨e2, ?_⟩
          simp only [startup, if_neg hd, if_pos hnd]
          exact he2
        · exfalso
          obtain ⟨db, hdb, hdrv⟩ := h
          apply hd
          rw [List.any_eq_true]
          refine ⟨db, hdb, ?_⟩
          simp [hdrv]
      · exact ⟨.duplicateMetricName, by simp only [startup, if_neg hd, if_neg hnd]⟩
  refine ⟨herr, fun js hjs => ?_⟩
  obtain ⟨e, he⟩ := herr
  rw [hjs] at he
  exact Except.noConfusion he

/-- C5 witness: a configuration repeating one metric name is refused. -/
theorem C5_witness :
    (∃ e, startup dupConfig = .error e) ∧ ∀ js, startup dupConfig ≠ .ok js :=
  C5_all_or_nothing dupConfig (Or.inl (by decide))

/-- C6: for every configuration accepted by startup, exactly one Job is
created per MetricSpec (the job count is the total MetricSpec count
across all databases) and the job metric names are pairwise distinct. -/
theorem C6_one_job_per_spec (cfg : Configuration) (js : List Job)
    (h : startup cfg = .ok js) :
    js.length = (cfg.databases.map (fun d => d.metrics.length)).sum ∧
    (js.map (fun j => j.spec.name)).Nodup := by
  by_cases hd : cfg.databases.any (fun d => !(knownDrivers.contains d.driver)) = true
  · simp only [startup, if_pos hd] at h
    exact Except.noConfusion h
  · by_cases hnd : ((allSpecs cfg).map MetricSpec.name).Nodup
    · have hb : buildJobs (pairedSpecs cfg) = .ok js := by
        simpa only [startup, if_neg hd, if_pos hnd] using h
      have hspec : js.map Job.spec = allSpecs cfg := by
        rw [buildJobs_ok_map hb, pairedSpecs_map_snd]
      constructor
      · have hlen : (js.map Job.spec).length = (allSpecs cfg).length := by rw [hspec]
        rw [List.length_map] at hlen
        rw [hlen, allSpecs_length]
      · have hnames : js.map (MetricSpec.name ∘ Job.spec) =
            (allSpecs cfg).map MetricSpec.name := by
          rw [← List.map_map, hspec]
        show (js.map (MetricSpec.name ∘ Job.spec)).Nodup
        rw [hnames]
        exact hnd
    · simp only [startup, if_neg hd, if_neg hnd] at h
      exact Except.noConfusion h

/-- C6 witness: the one-database one-metric configuration yields exactly
its one job with a unique name. -/
theorem C6_witness :
    sampleJobs.length = (sampleConfig.databases.map (fun d => d.metrics.length)).sum ∧
    (sampleJobs.map (fun j => j.spec.name)).Nodup :=
  C6_one_job_per_spec sampleConfig sampleJobs (by rfl)

end Jikji
